import Mathlib

set_option maxRecDepth 100000

/-!
Verification development for the IMA (今) reactive UI engine (src/ima.js).

The engine keeps parallel registries of reactive node bindings and reactive
attribute bindings, polls every binding once per animation frame
(`updateReactiveComponents`), patches the DOM only when the produced value
changed, and periodically compacts the registries
(`cleanupDisconnectedReactives`).  The static path (`staticTagGenerator`,
`buildAttributesHtml`, `escapeHtml`, `VOID_ELEMENTS`) renders the same call
shapes to markup strings.

This file shallowly embeds those functions.  JavaScript machine values are
modelled by `JSPrim` (no floats are needed by any claim; numbers are `Int`).
Producer callbacks are modelled as call-indexed streams
`Nat → Except String v`: index `n` is the value returned by the n-th
invocation, and an `.error` result models a thrown exception (the source has
no try/catch, so errors propagate).  Each registry slot carries a `calls`
counter so that "the producer was invoked" is observable.
-/

/-- JavaScript primitive values as far as the engine observes them. -/
inductive JSPrim where
  | str (s : String)
  | num (n : Int)
  | bool (b : Bool)
  | null
  | undefined
deriving DecidableEq, Repr

/-- JavaScript `String(v)` on a primitive. -/
def jsString : JSPrim → String
  | .str s => s
  | .num n => toString n
  | .bool true => "true"
  | .bool false => "false"
  | .null => "null"
  | .undefined => "undefined"

/-- JavaScript truthiness test on a primitive (`v` is falsy). -/
def jsFalsy : JSPrim → Bool
  | .str s => s == ""
  | .num n => n == 0
  | .bool b => !b
  | .null => true
  | .undefined => true

/-- JavaScript `String(v || "")`, the coercion used at src/ima.js lines 381,
399 and 524: a falsy primitive collapses to the empty string, any other
primitive is coerced with `String`. -/
def jsOrEmpty (p : JSPrim) : String :=
  if jsFalsy p then "" else jsString p

/-- DOM nodes as far as the node pass observes them: text nodes (observed via
`nodeType === TEXT_NODE` and `textContent`), `HTMLElement`s (observed via
`instanceof HTMLElement` and compared by `outerHTML`), and any other kind of
node (comments, SVG elements, ...), which the pass never inspects further. -/
inductive DomNode where
  | text (content : String)
  | htmlElem (outer : String)
  | otherNode (desc : String)
deriving DecidableEq, Repr

/-- Values returned by a node-binding producer: a DOM `Node` or a primitive. -/
inductive NodeVal where
  | node (n : DomNode)
  | prim (p : JSPrim)
deriving DecidableEq, Repr

/-- Values returned by an attribute-binding producer: a primitive or a
reference value (object), compared by identity (`id`). Lean equality on
`AttrVal` coincides with JavaScript `===` on the modelled values. -/
inductive AttrVal where
  | prim (p : JSPrim)
  | obj (id : Nat)
deriving DecidableEq, Repr

/-- JavaScript `String(v)` on an attribute value. -/
def attrString : AttrVal → String
  | .prim p => jsString p
  | .obj _ => "[object Object]"

/-- One slot of the reactive-node registry (the bundled entry of the parallel
arrays `reactive_markers`, `reactive_callbacks`, `reactive_prev_values` at one
index; the three are always set and nulled together in the source).
`connected` is `marker.isConnected`, `current` is `marker.previousSibling`
(the content node the binding owns), `prev` is `reactive_prev_values[i]`, and
`calls` counts how often the producer has been invoked. -/
structure NodeSlot where
  connected : Bool
  current : Option DomNode
  prev : Option DomNode
  cb : Nat → Except String NodeVal
  calls : Nat

/-- One slot of the reactive-attribute registry (bundling
`reactive_attr_elements`, `reactive_attr_names`, `reactive_attr_callbacks`,
`reactive_attr_prev_values` at one index).  `connected` is
`element.isConnected`, `attrVal` is the attribute's current value on the
element (`none` = absent), `prev` is `reactive_attr_prev_values[i]`. -/
structure AttrSlot where
  connected : Bool
  attrName : String
  attrVal : Option String
  prev : AttrVal
  cb : Nat → Except String AttrVal
  calls : Nat

/-- Result of processing one registry entry during a pass. -/
structure EntryOut (σ : Type) where
  entry : Option σ
  found : Bool
  wrote : Bool
  err : Option String

/-- The attribute coercion of src/ima.js lines 333-341: `true` sets the
string "true", `false` sets the string "false", `null`/`undefined` removes
the attribute, anything else sets `String(value)`. -/
def coerceAttr : AttrVal → Option String
  | .prim (.bool true) => some "true"
  | .prim (.bool false) => some "false"
  | .prim .null => none
  | .prim .undefined => none
  | v => some (attrString v)

/-- One iteration of the attribute pass (src/ima.js lines 315-345).  A `none`
entry models a nulled/never-written slot (`!element`), which like a
disconnected element only raises the disconnection flag.  The `attrName = ""`
test models the `!attr_name` guard (a nulled name is covered by `none`; an
empty string name is also falsy).  The `!callback` guard is unreachable for a
non-null entry because the source always writes and nulls the parallel arrays
together. -/
def processAttrEntry (o : Option AttrSlot) : EntryOut AttrSlot :=
  match o with
  | none => ⟨none, true, false, none⟩
  | some s =>
    if !s.connected then ⟨some s, true, false, none⟩
    else if s.attrName = "" then ⟨some s, false, false, none⟩
    else
      match s.cb s.calls with
      | .error e => ⟨some { s with calls := s.calls + 1 }, false, false, some e⟩
      | .ok v =>
        let s1 := { s with calls := s.calls + 1 }
        if v = s.prev then ⟨some s1, false, false, none⟩
        else ⟨some { s1 with attrVal := coerceAttr v, prev := v }, false, true, none⟩

/-- Replacement test of the node pass (src/ima.js lines 366-387): for a
produced `Node`, compare `outerHTML` when both the current content and the
new value are `HTMLElement`s, otherwise always replace; for a produced
primitive, compare `String(new_value || "")` against the text content when
the current content is a text node, otherwise always replace. -/
def needsUpdate (cur : DomNode) : NodeVal → Bool
  | .node n =>
    match cur, n with
    | .htmlElem h1, .htmlElem h2 => h1 != h2
    | _, _ => true
  | .prim p =>
    match cur with
    | .text t => t != jsOrEmpty p
    | _ => true

/-- The node materialized for a produced value (src/ima.js lines 391-400): a
produced `Node` is used as is, a primitive is wrapped in a fresh text node
holding `String(new_value || "")`. -/
def materializeNode : NodeVal → DomNode
  | .node n => n
  | .prim p => .text (jsOrEmpty p)

/-- One iteration of the node pass (src/ima.js lines 348-404).  The producer
is invoked first; a marker without a previous sibling is then skipped
(`!current_node`); otherwise the replacement test decides whether the
preceding sibling of the marker is replaced.  `reactive_prev_values` is not
touched by this pass in the source. -/
def processNodeEntry (o : Option NodeSlot) : EntryOut NodeSlot :=
  match o with
  | none => ⟨none, true, false, none⟩
  | some s =>
    if !s.connected then ⟨some s, true, false, none⟩
    else
      match s.cb s.calls with
      | .error e => ⟨some { s with calls := s.calls + 1 }, false, false, some e⟩
      | .ok v =>
        let s1 := { s with calls := s.calls + 1 }
        match s.current with
        | none => ⟨some s1, false, false, none⟩
        | some cur =>
          if needsUpdate cur v then
            ⟨some { s1 with current := some (materializeNode v) }, false, true, none⟩
          else ⟨some s1, false, false, none⟩

/-- Result of a whole pass over one registry. -/
structure PassOut (σ : Type) where
  slots : List (Option σ)
  found : Bool
  writes : List Bool
  err : Option String

/-- The attribute pass over the active prefix of the registry, in ascending
slot order.  A thrown exception aborts the pass: the remaining entries are
returned untouched. -/
def attrPassList : List (Option AttrSlot) → PassOut AttrSlot
  | [] => ⟨[], false, [], none⟩
  | o :: rest =>
    let r := processAttrEntry o
    match r.err with
    | some e => ⟨r.entry :: rest, r.found, r.wrote :: rest.map (fun _ => false), some e⟩
    | none =>
      let t := attrPassList rest
      ⟨r.entry :: t.slots, r.found || t.found, r.wrote :: t.writes, t.err⟩

/-- The node pass over the active prefix of the registry, in ascending slot
order, aborting on a thrown exception. -/
def nodePassList : List (Option NodeSlot) → PassOut NodeSlot
  | [] => ⟨[], false, [], none⟩
  | o :: rest =>
    let r := processNodeEntry o
    match r.err with
    | some e => ⟨r.entry :: rest, r.found, r.wrote :: rest.map (fun _ => false), some e⟩
    | none =>
      let t := nodePassList rest
      ⟨r.entry :: t.slots, r.found || t.found, r.wrote :: t.writes, t.err⟩

/-- Global engine state: the two registries as physical arrays (a list entry
`none` is a nulled or never-written slot) with their active counts, plus the
sweep countdown `cleanup_counter`. -/
structure Engine where
  nodeArr : List (Option NodeSlot)
  nodeCount : Nat
  attrArr : List (Option AttrSlot)
  attrCount : Nat
  cleanupCounter : Nat

/-- The compaction loop of `cleanupDisconnectedReactives` (src/ima.js lines
431-446 resp. 457-474): walk read indices `0..count-1` (here `fuel` counts the
remaining iterations, so `read` ranges over exactly the same indices), keep an
entry iff it is non-null and still connected, copying it down to the write
index when the two differ. -/
def compactLoop (keep : α → Bool) : Nat → List (Option α) → Nat → Nat → List (Option α) × Nat
  | 0, arr, _, write => (arr, write)
  | fuel + 1, arr, read, write =>
    match arr.getD read none with
    | some s =>
      if keep s then
        compactLoop keep fuel (if write = read then arr else arr.set write (some s)) (read + 1) (write + 1)
      else compactLoop keep fuel arr (read + 1) write
    | none => compactLoop keep fuel arr (read + 1) write

/-- The nulling loop of `cleanupDisconnectedReactives` (src/ima.js lines
449-453 resp. 477-482): null every slot from the write index up to the old
count (`fuel` iterations starting at index `i`). -/
def nullLoop : Nat → List (Option α) → Nat → List (Option α)
  | 0, arr, _ => arr
  | fuel + 1, arr, i => nullLoop fuel (arr.set i none) (i + 1)

/-- Sweep of one registry: compact the connected entries into a prefix, null
the remaining slots below the old count, return the new array and count. -/
def cleanupRegistry (keep : α → Bool) (arr : List (Option α)) (count : Nat) :
    List (Option α) × Nat :=
  let c := compactLoop keep count arr 0 0
  (nullLoop (count - c.2) c.1 c.2, c.2)

/-- Model of `cleanupDisconnectedReactives` (src/ima.js lines 429-484): sweep
the node registry, then the attribute registry. -/
def cleanupDisconnectedReactives (e : Engine) : Engine :=
  let n := cleanupRegistry (fun s : NodeSlot => s.connected) e.nodeArr e.nodeCount
  let a := cleanupRegistry (fun s : AttrSlot => s.connected) e.attrArr e.attrCount
  { e with nodeArr := n.1, nodeCount := n.2, attrArr := a.1, attrCount := a.2 }

/-- Result of one tick, with instrumentation: whether each pass observed a
disconnected slot, the per-slot DOM-write flags, whether the sweep ran, and
the propagated exception if a producer threw. -/
structure TickOut where
  engine : Engine
  err : Option String
  foundAttrs : Bool
  foundNodes : Bool
  attrWrites : List Bool
  nodeWrites : List Bool
  swept : Bool

/-- Model of `updateReactiveComponents` (src/ima.js lines 307-420): attribute
pass, then node pass, then — only when some disconnection was observed — the
cleanup countdown, sweeping when the counter reaches 60.  A thrown exception
propagates and aborts everything after its throw point. -/
def updateReactiveComponents (e : Engine) : TickOut :=
  let ap := attrPassList (e.attrArr.take e.attrCount)
  let e1 := { e with attrArr := ap.slots ++ e.attrArr.drop e.attrCount }
  match ap.err with
  | some msg => ⟨e1, some msg, ap.found, false, ap.writes, [], false⟩
  | none =>
    let np := nodePassList (e1.nodeArr.take e1.nodeCount)
    let e2 := { e1 with nodeArr := np.slots ++ e1.nodeArr.drop e1.nodeCount }
    match np.err with
    | some msg => ⟨e2, some msg, ap.found, np.found, ap.writes, np.writes, false⟩
    | none =>
      if ap.found || np.found then
        if e2.cleanupCounter + 1 ≥ 60 then
          ⟨cleanupDisconnectedReactives { e2 with cleanupCounter := 0 },
            none, ap.found, np.found, ap.writes, np.writes, true⟩
        else
          ⟨{ e2 with cleanupCounter := e2.cleanupCounter + 1 },
            none, ap.found, np.found, ap.writes, np.writes, false⟩
      else ⟨e2, none, ap.found, np.found, ap.writes, np.writes, false⟩

/-- Write `v` at index `i`, extending the list with `none` padding if needed
(JavaScript array assignment `arr[i] = v` auto-extends). -/
def setPad (l : List (Option α)) (i : Nat) (v : Option α) : List (Option α) :=
  if i < l.length then l.set i v
  else l ++ List.replicate (i - l.length) none ++ [v]

/-- Model of `setupReactiveNode` (src/ima.js lines 508-538).  The slot index
is claimed (count incremented) before the producer's first invocation, so a
throwing producer leaves an unset slot behind while the exception propagates.
On success the initial node (a produced `Node`, or `String(value || "")`
wrapped in a text node) sits immediately before the fresh marker inside a
detached fragment, hence `connected := false` and `current = prev = ` the
initial node.  Returns the initial node alongside the new engine. -/
def setupReactiveNode (cb : Nat → Except String NodeVal) (e : Engine) :
    Engine × Except String DomNode :=
  let idx := e.nodeCount
  let e1 := { e with nodeCount := idx + 1 }
  match cb 0 with
  | .error msg => (e1, .error msg)
  | .ok v =>
    let initialNode := materializeNode v
    let slot : NodeSlot :=
      { connected := false, current := some initialNode, prev := some initialNode
        cb := cb, calls := 1 }
    ({ e1 with nodeArr := setPad e1.nodeArr idx (some slot) }, .ok initialNode)

/-- Initial attribute application of `setupReactiveAttr` (src/ima.js lines
555-561): like the tick coercion except that `null`/`undefined` leave the
element untouched instead of removing the attribute. -/
def setupAttrApply (before : Option String) : AttrVal → Option String
  | .prim (.bool true) => some "true"
  | .prim (.bool false) => some "false"
  | .prim .null => before
  | .prim .undefined => before
  | v => some (attrString v)

/-- Model of `setupReactiveAttr` (src/ima.js lines 548-568).  `connected` and
`before` describe the host element (its connectivity and the attribute's
value before registration).  The slot index is claimed before the first
invocation; a throwing producer propagates and leaves the slot unset. -/
def setupReactiveAttr (name : String) (cb : Nat → Except String AttrVal)
    (connected : Bool) (before : Option String) (e : Engine) :
    Engine × Except String Unit :=
  let idx := e.attrCount
  let e1 := { e with attrCount := idx + 1 }
  match cb 0 with
  | .error msg => (e1, .error msg)
  | .ok v =>
    let slot : AttrSlot :=
      { connected := connected, attrName := name, attrVal := setupAttrApply before v
        prev := v, cb := cb, calls := 1 }
    ({ e1 with attrArr := setPad e1.attrArr idx (some slot) }, .ok ())

/-- Void elements that are self-closing (src/ima.js lines 576-591). -/
def VOID_ELEMENTS : List String :=
  ["area", "base", "br", "col", "embed", "hr", "img", "input",
   "link", "meta", "param", "source", "track", "wbr"]

/-- Escape of one character per `escapeHtml` (src/ima.js lines 603-610).  The
source applies five global `String.replace` passes in the order `&`, `"`,
`'`, `<`, `>`; since no replacement string contains a character that a later
pass rewrites (the `&` of `&quot;` etc. is introduced after the `&` pass),
the chain equals this single character-wise map. -/
def escapeHtmlChar (c : Char) : String :=
  if c = '&' then "&amp;"
  else if c = '\x22' then "&quot;"
  else if c = '\x27' then "&#39;"
  else if c = '<' then "&lt;"
  else if c = '>' then "&gt;"
  else String.singleton c

/-- Model of `escapeHtml` (src/ima.js lines 603-610). -/
def escapeHtml (value : String) : String :=
  String.join (value.toList.map escapeHtmlChar)

/-- Attribute value kinds accepted by the static path: a primitive or a
producer function.  A producer carries a label `pid` (its identity, used by
the invocation log) and its call-indexed result stream. -/
inductive AVal where
  | prim (p : JSPrim)
  | fnAttr (pid : Nat) (f : Nat → JSPrim)

/-- Test for a producer attribute value (`typeof value === "function"`). -/
def isFnA : AVal → Bool
  | .fnAttr _ _ => true
  | _ => false

/-- Child value kinds accepted by the static path: primitives, producer
functions, and arbitrarily nested arrays (flattened with `flat(Infinity)`). -/
inductive ChildVal where
  | prim (p : JSPrim)
  | fnChild (pid : Nat) (f : Nat → JSPrim)
  | list (items : List ChildVal)

/-- A child after `flat(Infinity)`. -/
inductive FlatChild where
  | prim (p : JSPrim)
  | fn (pid : Nat) (f : Nat → JSPrim)

/-- The `innerHTML` option: a string-like value or a producer. -/
inductive IHVal where
  | prim (p : JSPrim)
  | fnIH (pid : Nat) (f : Nat → JSPrim)

/-- Arguments of one tag call after `parseTagArgs` (src/ima.js lines 151-184)
has classified them: the props map (with `is`, `ref`, `innerHTML` already
stripped), the children list, and the extracted `innerHTML` if any.  Both
generators consume this shared parsed form. -/
structure TagArgs where
  props : List (String × AVal)
  children : List ChildVal
  innerHTML : Option IHVal

/-- JavaScript `key.startsWith("on")` on the attribute name. -/
def startsWithOn (s : String) : Bool :=
  match s.toList with
  | 'o' :: 'n' :: _ => true
  | _ => false

/-- Model of `buildAttributesHtml` (src/ima.js lines 622-639), written as a
right-recursion over the entries; the source's loop appends string chunks
left to right, which is the same concatenation.  Keys starting with "on" and
function values are skipped; `true` renders as a bare attribute name,
`false`, `null` and `undefined` render nothing, anything else renders
`key="escaped value"`. -/
def buildAttributesHtml : List (String × AVal) → String
  | [] => ""
  | (key, v) :: rest =>
    (if startsWithOn key || isFnA v then ""
     else
       match v with
       | .prim (.bool true) => " " ++ key
       | .prim (.bool false) => ""
       | .prim .null => ""
       | .prim .undefined => ""
       | .prim p => " " ++ key ++ "=\x22" ++ escapeHtml (jsString p) ++ "\x22"
       | .fnAttr _ _ => "")
    ++ buildAttributesHtml rest

/-- Model of `children.flat(Infinity)` as used at src/ima.js line 670. -/
def flattenChildren : List ChildVal → List FlatChild
  | [] => []
  | .prim p :: rest => .prim p :: flattenChildren rest
  | .fnChild pid f :: rest => .fn pid f :: flattenChildren rest
  | .list items :: rest => flattenChildren items ++ flattenChildren rest

/-- Child rendering of the static path (src/ima.js lines 670-680), threading
the producer-invocation log: `null`/`undefined` children are skipped, a
function child is invoked (its call index is the number of its previous
invocations in the log) and its result string-concatenated raw, any other
child is string-concatenated raw. -/
def renderChildren : List FlatChild → List Nat → String × List Nat
  | [], log => ("", log)
  | .prim .null :: rest, log => renderChildren rest log
  | .prim .undefined :: rest, log => renderChildren rest log
  | .prim p :: rest, log =>
    let t := renderChildren rest log
    (jsString p ++ t.1, t.2)
  | .fn pid f :: rest, log =>
    let v := f (log.count pid)
    let t := renderChildren rest (log ++ [pid])
    (jsString v ++ t.1, t.2)

/-- Model of `staticTagGenerator` (src/ima.js lines 648-684), instrumented
with the log of producer invocations (in order; a producer's label is
appended each time it is called).  Void tags stop at the self-closing form;
`innerHTML` (resolved once if a producer) short-circuits children. -/
def staticTagGenerator (tag : String) (args : TagArgs) : String × List Nat :=
  let opening := "<" ++ tag ++ buildAttributesHtml args.props
  if VOID_ELEMENTS.contains tag then (opening ++ "/>", [])
  else
    match args.innerHTML with
    | some (.prim p) =>
      (opening ++ ">" ++ jsString p ++ "</" ++ tag ++ ">", [])
    | some (.fnIH pid f) =>
      (opening ++ ">" ++ jsString (f 0) ++ "</" ++ tag ++ ">", [pid])
    | none =>
      let t := renderChildren (flattenChildren args.children) []
      (opening ++ ">" ++ t.1 ++ "</" ++ tag ++ ">", t.2)

/-- Labels of the producer occurrences in a flattened child list, in
document order. -/
def fnPids : List FlatChild → List Nat
  | [] => []
  | .fn pid _ :: rest => pid :: fnPids rest
  | .prim _ :: rest => fnPids rest

/-- A DOM element tree as built by the live path: element nodes with their
attribute list (in setAttribute order; props come from `Object.entries` of an
object literal, so keys are distinct) and child nodes, or text nodes. -/
inductive DomTree where
  | elem (tag : String) (attrs : List (String × String)) (children : List DomTree)
  | textN (s : String)

/-- A static construction expression: one tag call with primitive-valued
props and children that are nested tag calls or primitive children.  This is
the common input shape of claim C4 (no producers anywhere). -/
inductive STree where
  | elemT (tag : String) (props : List (String × JSPrim)) (children : List STree)
  | textT (p : JSPrim)

/-- Attribute handling of the live path (src/ima.js lines 210-239) for
primitive values: `true` sets the string "true", `false` sets the string
"false", `null`/`undefined` set nothing, everything else sets `String(value)`.
There is no "on"-prefix skip here: the listener branch requires a function
value, so an "on"-named primitive falls through to `setAttribute`. -/
def liveAttrs (props : List (String × JSPrim)) : List (String × String) :=
  props.filterMap fun kv =>
    match kv.2 with
    | .bool true => some (kv.1, "true")
    | .bool false => some (kv.1, "false")
    | .null => none
    | .undefined => none
    | p => some (kv.1, jsString p)

mutual
/-- Model of `tagGenerator` (src/ima.js lines 194-263) restricted to static
(non-producer) arguments: build the element, set the coerced attributes,
append the children (skipping `null`/`undefined`, appending nodes as is and
wrapping other primitives in text nodes via `String(child)`). -/
def tagGeneratorPure : STree → DomTree
  | .elemT tag props children => .elem tag (liveAttrs props) (livePureChildren children)
  | .textT p => .textN (jsString p)
/-- Child processing of the live path for static children. -/
def livePureChildren : List STree → List DomTree
  | [] => []
  | .textT .null :: rest => livePureChildren rest
  | .textT .undefined :: rest => livePureChildren rest
  | c :: rest => tagGeneratorPure c :: livePureChildren rest
end

mutual
/-- The same construction run through the static path: each nested tag call
is rendered first and its markup string is passed as a string child, exactly
as `h.div(h.p("x"))` evaluates. -/
def staticBuild : STree → String
  | .elemT tag props children =>
    (staticTagGenerator tag
      ⟨props.map (fun kv => (kv.1, AVal.prim kv.2)), staticBuildChildren children, none⟩).1
  | .textT p => jsString p
/-- Child arguments handed to the static generator: a nested call becomes
its rendered markup string, a primitive child stays a primitive. -/
def staticBuildChildren : List STree → List ChildVal
  | [] => []
  | .elemT tag props children :: rest =>
    .prim (.str (staticBuild (.elemT tag props children))) :: staticBuildChildren rest
  | .textT p :: rest => .prim p :: staticBuildChildren rest
end

/-- Escape of one character in serialized text content, as the host
platform's HTML fragment serializer performs it. -/
def escapeTextChar (c : Char) : String :=
  if c = '&' then "&amp;"
  else if c = '<' then "&lt;"
  else if c = '>' then "&gt;"
  else String.singleton c

/-- Text-content escaping of the host serializer. -/
def escapeText (s : String) : String :=
  String.join (s.toList.map escapeTextChar)

/-- Serialized attribute list of the modelled DOM serializer. -/
def serializeAttrs : List (String × String) → String
  | [] => ""
  | kv :: rest => " " ++ kv.1 ++ "=\x22" ++ escapeHtml kv.2 ++ "\x22" ++ serializeAttrs rest

mutual
/-- Modelled from the spec: the host platform's DOM serialization (the
`outerHTML` of the tree the live path built), the comparator of claim C4's
"DOM serialization ... agree ... up to escaping of attribute values".  The
repository does not contain the serializer, so it is modelled here: elements
render their attributes in order and then their children, void tags render
without children or a closing tag, text nodes render escaped.  Following the
claim's "up to escaping of attribute values", attribute values are normalized
to the same `escapeHtml` escaping the static path uses (a browser escapes
fewer characters in attribute values; the claim quotients that difference
away). -/
def serializeDom : DomTree → String
  | .textN s => escapeText s
  | .elem tag attrs children =>
    if VOID_ELEMENTS.contains tag then "<" ++ tag ++ serializeAttrs attrs ++ ">"
    else
      "<" ++ tag ++ serializeAttrs attrs ++ ">" ++ serializeDomList children
        ++ "</" ++ tag ++ ">"
/-- Serialization of a child list, concatenated in order. -/
def serializeDomList : List DomTree → String
  | [] => ""
  | c :: rest => serializeDom c ++ serializeDomList rest
end

/-- Conditions under which the two paths agree (the amendment of C4): no
producer values anywhere (already structural), no void tags, no boolean
attribute values, no "on"-prefixed attribute names, and text children whose
string form survives text escaping unchanged. -/
def goodAttr (kv : String × JSPrim) : Bool :=
  !startsWithOn kv.1 &&
    (match kv.2 with
     | .bool _ => false
     | _ => true)

mutual
/-- Well-formedness of a static tree for the amended claim C4. -/
def goodS : STree → Bool
  | .elemT tag props children =>
    !VOID_ELEMENTS.contains tag && props.all goodAttr && goodSChildren children
  | .textT p => escapeText (jsString p) == jsString p
/-- Well-formedness of a child list for the amended claim C4. -/
def goodSChildren : List STree → Bool
  | [] => true
  | c :: rest => goodS c && goodSChildren rest
end

/-- The entries a sweep retains from a registry window: the non-null,
still-connected ones, in order. -/
def keptOf (keep : α → Bool) (l : List (Option α)) : List α :=
  l.filterMap fun o =>
    match o with
    | some s => if keep s then some s else none
    | none => none

/-- The engine state before any binding is registered. -/
def emptyEngine : Engine := ⟨[], 0, [], 0, 0⟩

/-- Environment action: the tree holding every registered marker is attached
to (or detached from) the live document, flipping `isConnected`. -/
def withNodeConnected (e : Engine) (b : Bool) : Engine :=
  { e with nodeArr := e.nodeArr.map (Option.map fun s => { s with connected := b }) }

/-- Environment action: the host elements of every attribute binding are
attached to (or detached from) the live document. -/
def withAttrConnected (e : Engine) (b : Bool) : Engine :=
  { e with attrArr := e.attrArr.map (Option.map fun s => { s with connected := b }) }

/-- The content node currently sitting before the marker of node slot `i`
(`none` = no such slot, `some none` = marker has no previous sibling). -/
def nodeCurrentAt (e : Engine) (i : Nat) : Option (Option DomNode) :=
  (e.nodeArr.getD i none).map fun s => s.current

/-- Iterated ticks. -/
def tickIter : Nat → Engine → Engine
  | 0, e => e
  | n + 1, e => tickIter n (updateReactiveComponents e).engine

/-- Whether any of the next `n` ticks runs the sweep. -/
def anySwept : Nat → Engine → Bool
  | 0, _ => false
  | n + 1, e => (updateReactiveComponents e).swept || anySwept n (updateReactiveComponents e).engine

/-- Producer of the C1 scenario, `() => count`: `count` is 0 for the
registration call and the first tick, then 1 (the external mutation). -/
def c1Stream : Nat → Except String NodeVal :=
  fun n => .ok (.prim (.num (if n ≤ 1 then 0 else 1)))

/-- Registration of the C1 scenario binding. -/
def c1Setup : Engine × Except String DomNode := setupReactiveNode c1Stream emptyEngine

/-- The C1 scenario engine after the fragment is appended to the live tree. -/
def c1E0 : Engine := withNodeConnected c1Setup.1 true

/-- The C1 scenario ticks. -/
def c1T1 : TickOut := updateReactiveComponents c1E0

/-- Second tick of the C1 scenario (after `count` became 1). -/
def c1T2 : TickOut := updateReactiveComponents c1T1.engine

/-- Third tick of the C1 scenario (`count` still 1). -/
def c1T3 : TickOut := updateReactiveComponents c1T2.engine

/-- Witness slot for claim C2: a connected attribute binding whose producer
switches from "a" to "b". -/
def c2Slot : AttrSlot :=
  ⟨true, "class", some "a", .prim (.str "a"), fun _ => .ok (.prim (.str "b")), 1⟩

/-- Counterexample slot for claim C3: the current content is the text node
"0" and the producer returns the number 0. -/
def c3Slot : NodeSlot :=
  ⟨true, some (.text "0"), some (.text "0"), fun _ => .ok (.prim (.num 0)), 1⟩

/-- Witness slot for the amended claim C3: current content "a", producer
returns the string "b". -/
def c3WSlot : NodeSlot :=
  ⟨true, some (.text "a"), some (.text "a"), fun _ => .ok (.prim (.str "b")), 1⟩

/-- Counterexample slot for claim C9: the registered initial node is the
empty text node; the producer now returns 1. -/
def c9Slot : NodeSlot :=
  ⟨true, some (.text ""), some (.text ""), fun _ => .ok (.prim (.num 1)), 1⟩

/-- Attribute slot of the C6 scenario: its host element is detached before
tick 1 and re-attached afterwards. -/
def c6Slot : AttrSlot :=
  ⟨false, "id", some "x", .prim (.str "x"), fun _ => .ok (.prim (.str "x")), 1⟩

/-- The C6 scenario engine: one attribute binding, detached host, counter 0
(no sweep has ever run). -/
def c6E0 : Engine := ⟨[], 0, [some c6Slot], 1, 0⟩

/-- Tick 1 of the C6 scenario (observes the disconnection). -/
def c6T1 : TickOut := updateReactiveComponents c6E0

/-- The C6 scenario engine after the host is re-attached, before ticks 2-60. -/
def c6E1 : Engine := withAttrConnected c6T1.engine true

/-- A connected attribute slot whose producer keeps returning the same
value (used in the C7 and C8 fixtures). -/
def quietASlot : AttrSlot :=
  ⟨true, "y", some "1", .prim (.num 1), fun _ => .ok (.prim (.num 1)), 1⟩

/-- A disconnected attribute slot (C7 fixture). -/
def deadASlot : AttrSlot :=
  ⟨false, "z", some "2", .prim (.num 2), fun _ => .ok (.prim (.num 2)), 1⟩

/-- A connected node slot whose producer keeps returning the current text
(C7 and C8 fixture). -/
def quietNSlot : NodeSlot :=
  ⟨true, some (.text "t"), some (.text "t"), fun _ => .ok (.prim (.str "t")), 1⟩

/-- A disconnected node slot (C7 fixture). -/
def deadNSlot : NodeSlot :=
  ⟨false, some (.text "u"), some (.text "u"), fun _ => .ok (.prim (.str "u")), 1⟩

/-- An attribute slot whose producer throws (C8 fixture). -/
def throwASlot : AttrSlot :=
  ⟨true, "x", none, .prim .null, fun _ => .error "boom", 0⟩

/-- The C8 fixture engine: a healthy attribute slot, then a throwing one,
then a never-reached one; one node slot that must stay untouched. -/
def c8E : Engine :=
  ⟨[some quietNSlot], 1, [some quietASlot, some throwASlot, some deadASlot], 3, 7⟩

/-- The C7 fixture engine: registries holding live and dead slots. -/
def c7E : Engine :=
  ⟨[some quietNSlot, some deadNSlot, none], 3,
   [some deadASlot, some quietASlot], 2, 59⟩

/-- Counterexample input for claim C4: a single element with the static
attribute value `false`. -/
def c4Tree : STree := .elemT "div" [("hidden", .bool false)] []

/-- Witness input for the amended claim C4: nested elements, a number and a
string attribute, text and numeric children. -/
def c4WTree : STree :=
  .elemT "div" [("id", .num 3), ("class", .str "a b")]
    [.textT (.str "hey"), .elemT "span" [] [.textT (.num 0)], .textT .null]

/-- The attribute producer of the C5 counterexample. -/
def c5AttrFn : Nat → JSPrim := fun _ => .str "x"

/-- Counterexample arguments for claim C5: one attribute producer (label 7)
that returns "x". -/
def c5Args : TagArgs := ⟨[("class", .fnAttr 7 c5AttrFn)], [], none⟩

/-- Witness arguments for the amended claim C5: two child producers around a
static child, and one attribute producer that must stay uninvoked. -/
def c5WArgs : TagArgs :=
  ⟨[("style", .fnAttr 3 fun _ => .str "s")],
   [.fnChild 1 (fun _ => .num 4), .prim (.str "mid"), .list [.fnChild 2 fun _ => .str "z"]],
   none⟩

/-- Witness arguments for claim C10: a void tag given children and
innerHTML, all of which must vanish. -/
def c10Args : TagArgs :=
  ⟨[("src", .prim (.str "a.png")), ("onclick", .fnAttr 9 fun _ => .str "h")],
   [.prim (.str "kid"), .fnChild 4 fun _ => .str "k2"],
   some (.fnIH 5 fun _ => .str "ih")⟩

example : jsOrEmpty (.num 0) = "" := by decide
example : jsOrEmpty (.num 7) = "7" := by decide
example : escapeHtml "a<b&c" = "a&lt;b&amp;c" := by decide
example : buildAttributesHtml [("class", .prim (.str "x")), ("disabled", .prim (.bool true)), ("hidden", .prim (.bool false))] = " class=\x22x\x22 disabled" := by decide
example : (staticTagGenerator "br" ⟨[], [.prim (.str "kid")], none⟩).1 = "<br/>" := by
  simp [staticTagGenerator, buildAttributesHtml, VOID_ELEMENTS]
example : (staticTagGenerator "div" ⟨[("id", .prim (.num 3))], [.prim (.str "a"), .list [.prim (.num 5)]], none⟩).1 = "<div id=\x223\x22>a5</div>" := by
  simp [staticTagGenerator, buildAttributesHtml, VOID_ELEMENTS, flattenChildren, renderChildren,
    startsWithOn, isFnA, jsString, escapeHtml, escapeHtmlChar]
  decide

example : c1Setup.2 = .ok (.text "") := by rfl
example : c1T1.nodeWrites = [false] := by decide
example : nodeCurrentAt c1T1.engine 0 = some (some (.text "")) := by decide
example : c1T2.nodeWrites = [true] := by decide
example : nodeCurrentAt c1T2.engine 0 = some (some (.text "1")) := by decide
example : c1T3.nodeWrites = [false] := by decide
example : c6T1.foundAttrs = true := by decide
example : c6T1.swept = false := by decide
example : anySwept 39 c6E1 = false := by decide
example : (tickIter 39 c6E1).cleanupCounter = 1 := by decide
example : (processNodeEntry (some c3Slot)).wrote = true := by decide
example : (processNodeEntry (some c9Slot)).wrote = true := by decide
example : (updateReactiveComponents c8E).err = some "boom" := by decide
example : (cleanupDisconnectedReactives c7E).attrCount = 1 := by decide
example : (cleanupDisconnectedReactives c7E).nodeCount = 1 := by decide

/-- The nulling loop blanks exactly the window `[i, i+fuel)`. -/
theorem nullLoop_spec {α : Type} : ∀ (fuel : Nat) (arr : List (Option α)) (i : Nat),
    i + fuel ≤ arr.length →
    nullLoop fuel arr i = arr.take i ++ List.replicate fuel none ++ arr.drop (i + fuel) := by
  intro fuel
  induction fuel with
  | zero => intro arr i h; simp [nullLoop]
  | succ fuel ih =>
    intro arr i h
    have hi : i < arr.length := by omega
    have hlen : (arr.take i).length = i := List.length_take_of_le (by omega)
    have hset : arr.set i none = arr.take i ++ none :: arr.drop (i + 1) := by
      rw [List.set_eq_take_append_cons_drop, if_pos hi]
    have ihh := ih (arr.set i none) (i + 1) (by simp; omega)
    rw [nullLoop, ihh, hset]
    have h1 : (arr.take i ++ none :: arr.drop (i + 1)).take (i + 1)
        = arr.take i ++ [none] := by
      have ht := @List.take_append _ (arr.take i) (none :: arr.drop (i + 1)) 1
      rw [hlen] at ht
      simpa using ht
    have h2 : (arr.take i ++ none :: arr.drop (i + 1)).drop (i + 1 + fuel)
        = arr.drop (i + (fuel + 1)) := by
      have hd := @List.drop_append _ (arr.take i) (none :: arr.drop (i + 1)) (1 + fuel)
      rw [hlen] at hd
      rw [show i + 1 + fuel = i + (1 + fuel) from by omega, hd,
        show 1 + fuel = fuel + 1 from by omega, List.drop_succ_cons, List.drop_drop,
        show i + 1 + fuel = i + (fuel + 1) from by omega]
    rw [h1, h2]
    simp [List.replicate_succ]

/-- The compaction loop writes the kept entries of the window
`[read, read+fuel)` contiguously after position `write`, leaves everything
before `write` and after the window untouched, and returns `write` advanced
by the number of kept entries; the gap up to the window end holds arbitrary
leftovers (`junk`), which the caller nulls. -/
theorem compactLoop_spec {α : Type} (keep : α → Bool) :
    ∀ (fuel read write : Nat) (arr : List (Option α)),
    write ≤ read → read + fuel ≤ arr.length →
    ∃ junk : List (Option α),
      compactLoop keep fuel arr read write =
        (arr.take write ++ (keptOf keep ((arr.drop read).take fuel)).map some ++ junk
          ++ arr.drop (read + fuel),
         write + (keptOf keep ((arr.drop read).take fuel)).length) ∧
      junk.length = (read + fuel) - (write + (keptOf keep ((arr.drop read).take fuel)).length) := by
  intro fuel
  induction fuel with
  | zero =>
    intro read write arr hwr hlen
    refine ⟨(arr.drop write).take (read - write), ?_, ?_⟩
    · have hlists : arr.take write ++ (arr.drop write).take (read - write) ++ arr.drop read
          = arr := by
        rw [← List.take_add, show write + (read - write) = read from by omega,
          List.take_append_drop]
      simp only [compactLoop, List.take_zero, keptOf, List.filterMap_nil, List.map_nil,
        List.nil_append, List.append_nil, Nat.add_zero, List.length_nil]
      rw [hlists]
    · simp only [List.take_zero, keptOf, List.filterMap_nil, List.length_nil]
      simp only [List.length_take, List.length_drop]
      omega
  | succ fuel ih =>
    intro read write arr hwr hlen
    have hread : read < arr.length := by omega
    have hgd : arr.getD read none = arr[read] := by
      simp [List.getD_eq_getElem?_getD, List.getElem?_eq_getElem hread]
    have hdropr : arr.drop read = arr[read] :: arr.drop (read + 1) :=
      List.drop_eq_getElem_cons hread
    rw [compactLoop, hgd]
    match hval : arr[read] with
    | none =>
      have hslice : (arr.drop read).take (fuel + 1)
          = none :: (arr.drop (read + 1)).take fuel := by rw [hdropr, hval]; rfl
      have hkept : keptOf keep ((arr.drop read).take (fuel + 1))
          = keptOf keep ((arr.drop (read + 1)).take fuel) := by
        rw [hslice]; simp [keptOf]
      obtain ⟨junk, heq, hjl⟩ := ih (read + 1) write arr (by omega) (by omega)
      refine ⟨junk, ?_, ?_⟩
      · rw [heq, hkept, show read + (fuel + 1) = read + 1 + fuel from by omega]
      · rw [hkept]; omega
    | some s =>
      have hslice : (arr.drop read).take (fuel + 1)
          = some s :: (arr.drop (read + 1)).take fuel := by rw [hdropr, hval]; rfl
      by_cases hkeep : keep s = true
      · have hkept : keptOf keep ((arr.drop read).take (fuel + 1))
            = s :: keptOf keep ((arr.drop (read + 1)).take fuel) := by
          rw [hslice]; simp [keptOf, hkeep]
        by_cases hwreq : write = read
        · subst hwreq
          simp only [hkeep, if_true, if_pos rfl]
          obtain ⟨junk, heq, hjl⟩ := ih (write + 1) (write + 1) arr (by omega) (by omega)
          refine ⟨junk, ?_, ?_⟩
          · rw [heq, hkept]
            have htw : arr.take (write + 1) = arr.take write ++ [some s] := by
              rw [List.take_succ, List.getElem?_eq_getElem hread, hval]; rfl
            rw [htw]
            simp only [List.map_cons, List.append_assoc, List.cons_append, List.nil_append,
              List.singleton_append, List.length_cons]
            rw [show write + 1 + fuel = write + (fuel + 1) from by omega]
            refine Prod.ext rfl ?_
            simp only []
            omega
          · rw [hkept]; simp only [List.length_cons]; omega
        · have hwlt : write < read := by omega
          simp only [hkeep, if_true, if_neg hwreq]
          obtain ⟨junk, heq, hjl⟩ := ih (read + 1) (write + 1) (arr.set write (some s))
            (by omega) (by simp; omega)
          have hd1 : (arr.set write (some s)).drop (read + 1) = arr.drop (read + 1) :=
            List.drop_set_of_lt _ _ (by omega)
          have hd2 : (arr.set write (some s)).drop (read + 1 + fuel)
              = arr.drop (read + 1 + fuel) :=
            List.drop_set_of_lt _ _ (by omega)
          have htw : (arr.set write (some s)).take (write + 1)
              = arr.take write ++ [some s] := by
            rw [List.take_succ, List.getElem?_set_self (by omega), List.set_take,
              List.set_eq_of_length_le (List.length_take_le _ _)]
            rfl
          rw [hd1] at heq hjl
          rw [htw, hd2] at heq
          refine ⟨junk, ?_, ?_⟩
          · rw [heq, hkept]
            simp only [List.map_cons, List.append_assoc, List.cons_append, List.nil_append,
              List.singleton_append, List.length_cons]
            rw [show read + (fuel + 1) = read + 1 + fuel from by omega]
            refine Prod.ext rfl ?_
            simp only []
            omega
          · rw [hkept]; simp only [List.length_cons]; omega
      · have hkept : keptOf keep ((arr.drop read).take (fuel + 1))
            = keptOf keep ((arr.drop (read + 1)).take fuel) := by
          rw [hslice]; simp [keptOf, hkeep]
        simp only [hkeep, if_false, Bool.false_eq_true]
        obtain ⟨junk, heq, hjl⟩ := ih (read + 1) write arr (by omega) (by omega)
        refine ⟨junk, ?_, ?_⟩
        · rw [heq, hkept, show read + (fuel + 1) = read + 1 + fuel from by omega]
        · rw [hkept]; omega

/-- The sweep of one registry: the still-connected entries end up in a
contiguous prefix in their original order, the rest of the old window is
nulled, the tail beyond the old count is untouched, and the returned count is
the number of retained entries. -/
theorem cleanupRegistry_spec {α : Type} (keep : α → Bool) (arr : List (Option α)) (count : Nat)
    (h : count ≤ arr.length) :
    cleanupRegistry keep arr count =
      ((keptOf keep (arr.take count)).map some
        ++ List.replicate (count - (keptOf keep (arr.take count)).length) none
        ++ arr.drop count,
       (keptOf keep (arr.take count)).length) := by
  obtain ⟨junk, heq, hjl⟩ := compactLoop_spec keep count 0 0 arr (by omega) (by omega)
  simp only [List.drop_zero, List.take_zero, List.nil_append, Nat.zero_add] at heq hjl
  have hkle : (keptOf keep (arr.take count)).length ≤ count := by
    have h1 : (keptOf keep (arr.take count)).length ≤ (arr.take count).length :=
      List.length_filterMap_le _ _
    have h2 : (arr.take count).length = count := List.length_take_of_le h
    omega
  rw [cleanupRegistry, heq]
  have hlen1 : ((keptOf keep (arr.take count)).map some ++ junk).length = count := by
    simp only [List.length_append, List.length_map]
    omega
  have hAlen : ((keptOf keep (arr.take count)).map some ++ junk ++ arr.drop count).length
      = arr.length := by
    simp only [List.length_append, List.length_map, List.length_drop]
    omega
  rw [nullLoop_spec _ _ _ (by rw [hAlen]; omega)]
  have htake : ((keptOf keep (arr.take count)).map some ++ junk ++ arr.drop count).take
      (keptOf keep (arr.take count)).length = (keptOf keep (arr.take count)).map some := by
    rw [List.append_assoc]
    exact List.take_left' (by simp)
  have hdropA : ((keptOf keep (arr.take count)).map some ++ junk ++ arr.drop count).drop
      ((keptOf keep (arr.take count)).length + (count - (keptOf keep (arr.take count)).length))
      = arr.drop count := by
    rw [show (keptOf keep (arr.take count)).length
          + (count - (keptOf keep (arr.take count)).length) = count from by omega]
    exact List.drop_left' hlen1
  rw [htake, hdropA]

/-- A nulled or disconnected attribute entry is returned untouched: no
producer call, no write, no error, only the disconnection flag. -/
theorem processAttrEntry_skip (o : Option AttrSlot)
    (h : ∀ s, o = some s → s.connected = false) :
    processAttrEntry o = ⟨o, true, false, none⟩ := by
  match o with
  | none => rfl
  | some s =>
    have hc := h s rfl
    simp [processAttrEntry, hc]

/-- A nulled or disconnected node entry is returned untouched. -/
theorem processNodeEntry_skip (o : Option NodeSlot)
    (h : ∀ s, o = some s → s.connected = false) :
    processNodeEntry o = ⟨o, true, false, none⟩ := by
  match o with
  | none => rfl
  | some s =>
    have hc := h s rfl
    simp [processNodeEntry, hc]

/-- The attribute pass leaves a nulled or disconnected slot exactly as it
was, whatever happens around it (even an abort). -/
theorem attrPassList_skip : ∀ (l : List (Option AttrSlot)) (i : Nat),
    (∀ s, l.getD i none = some s → s.connected = false) →
    (attrPassList l).slots.getD i none = l.getD i none := by
  intro l
  induction l with
  | nil => intro i h; simp [attrPassList]
  | cons o rest ih =>
    intro i h
    rw [attrPassList]
    match he : (processAttrEntry o).err with
    | some e =>
      simp only []
      match i with
      | 0 =>
        have : processAttrEntry o = ⟨o, true, false, none⟩ :=
          processAttrEntry_skip o (by intro s hs; exact h s (by simpa using hs))
        rw [this] at he
        simp at he
      | i + 1 => simp
    | none =>
      simp only []
      match i with
      | 0 =>
        have : processAttrEntry o = ⟨o, true, false, none⟩ :=
          processAttrEntry_skip o (by intro s hs; exact h s (by simpa using hs))
        rw [this]
        simp
      | i + 1 =>
        simpa using ih i (by intro s hs; exact h s (by simpa using hs))

/-- The node pass leaves a nulled or disconnected slot exactly as it was. -/
theorem nodePassList_skip : ∀ (l : List (Option NodeSlot)) (i : Nat),
    (∀ s, l.getD i none = some s → s.connected = false) →
    (nodePassList l).slots.getD i none = l.getD i none := by
  intro l
  induction l with
  | nil => intro i h; simp [nodePassList]
  | cons o rest ih =>
    intro i h
    rw [nodePassList]
    match he : (processNodeEntry o).err with
    | some e =>
      simp only []
      match i with
      | 0 =>
        have : processNodeEntry o = ⟨o, true, false, none⟩ :=
          processNodeEntry_skip o (by intro s hs; exact h s (by simpa using hs))
        rw [this] at he
        simp at he
      | i + 1 => simp
    | none =>
      simp only []
      match i with
      | 0 =>
        have : processNodeEntry o = ⟨o, true, false, none⟩ :=
          processNodeEntry_skip o (by intro s hs; exact h s (by simpa using hs))
        rw [this]
        simp
      | i + 1 =>
        simpa using ih i (by intro s hs; exact h s (by simpa using hs))

/-- If every entry before some slot processes without throwing and that slot's
processing throws, the attribute pass returns that exception, with the
already-processed prefix updated, the throwing slot's producer invocation
recorded, and every later slot untouched. -/
theorem attrPassList_abort : ∀ (l1 : List (Option AttrSlot)) (o : Option AttrSlot)
    (l2 : List (Option AttrSlot)) (msg : String),
    (∀ x ∈ l1, (processAttrEntry x).err = none) →
    (processAttrEntry o).err = some msg →
    (attrPassList (l1 ++ o :: l2)).err = some msg ∧
    (attrPassList (l1 ++ o :: l2)).slots
      = l1.map (fun x => (processAttrEntry x).entry) ++ (processAttrEntry o).entry :: l2 := by
  intro l1
  induction l1 with
  | nil =>
    intro o l2 msg hpre herr
    rw [List.nil_append, attrPassList]
    rw [herr]
    simp
  | cons x l1 ih =>
    intro o l2 msg hpre herr
    have hx : (processAttrEntry x).err = none := hpre x (List.mem_cons_self x l1)
    have ihh := ih o l2 msg (fun y hy => hpre y (List.mem_cons_of_mem x hy)) herr
    rw [List.cons_append, attrPassList, hx]
    simp only [List.map_cons, List.cons_append]
    exact ⟨ihh.1, by rw [ihh.2]⟩

/-- Node-pass version of `attrPassList_abort`. -/
theorem nodePassList_abort : ∀ (l1 : List (Option NodeSlot)) (o : Option NodeSlot)
    (l2 : List (Option NodeSlot)) (msg : String),
    (∀ x ∈ l1, (processNodeEntry x).err = none) →
    (processNodeEntry o).err = some msg →
    (nodePassList (l1 ++ o :: l2)).err = some msg ∧
    (nodePassList (l1 ++ o :: l2)).slots
      = l1.map (fun x => (processNodeEntry x).entry) ++ (processNodeEntry o).entry :: l2 := by
  intro l1
  induction l1 with
  | nil =>
    intro o l2 msg hpre herr
    rw [List.nil_append, nodePassList]
    rw [herr]
    simp
  | cons x l1 ih =>
    intro o l2 msg hpre herr
    have hx : (processNodeEntry x).err = none := hpre x (List.mem_cons_self x l1)
    have ihh := ih o l2 msg (fun y hy => hpre y (List.mem_cons_of_mem x hy)) herr
    rw [List.cons_append, nodePassList, hx]
    simp only [List.map_cons, List.cons_append]
    exact ⟨ihh.1, by rw [ihh.2]⟩

/-- The child-rendering fold appends exactly the producer occurrences, in
document order, to the invocation log. -/
theorem renderChildren_log : ∀ (l : List FlatChild) (log : List Nat),
    (renderChildren l log).2 = log ++ fnPids l := by
  intro l
  induction l with
  | nil => intro log; simp [renderChildren, fnPids]
  | cons c rest ih =>
    intro log
    match c with
    | .prim .null => simpa [renderChildren, fnPids] using ih log
    | .prim .undefined => simpa [renderChildren, fnPids] using ih log
    | .prim (.str s) => simpa [renderChildren, fnPids] using ih log
    | .prim (.num n) => simpa [renderChildren, fnPids] using ih log
    | .prim (.bool b) => simpa [renderChildren, fnPids] using ih log
    | .fn pid f =>
      rw [renderChildren]
      simp only [fnPids]
      rw [ih (log ++ [pid])]
      simp

/-- A producer attribute value is skipped by the static attribute builder:
removing it from the props changes nothing. -/
theorem buildAttributesHtml_skip_fn : ∀ (l1 : List (String × AVal)) (k : String)
    (pid : Nat) (f : Nat → JSPrim) (l2 : List (String × AVal)),
    buildAttributesHtml (l1 ++ (k, .fnAttr pid f) :: l2) = buildAttributesHtml (l1 ++ l2) := by
  intro l1
  induction l1 with
  | nil =>
    intro k pid f l2
    rw [List.nil_append, List.nil_append, buildAttributesHtml]
    simp [isFnA]
  | cons x l1 ih =>
    intro k pid f l2
    match x with
    | (k2, v2) =>
      rw [List.cons_append, List.cons_append]
      simp only [buildAttributesHtml]
      rw [ih k pid f l2]

/-- Unfolding of the live attribute coercion on a string-valued head. -/
theorem liveAttrs_cons_str (k s : String) (rest : List (String × JSPrim)) :
    liveAttrs ((k, .str s) :: rest) = (k, s) :: liveAttrs rest := by
  simp [liveAttrs, jsString]

/-- Unfolding of the live attribute coercion on a number-valued head. -/
theorem liveAttrs_cons_num (k : String) (n : Int) (rest : List (String × JSPrim)) :
    liveAttrs ((k, .num n) :: rest) = (k, toString n) :: liveAttrs rest := by
  simp [liveAttrs, jsString]

/-- Unfolding of the live attribute coercion on a null-valued head. -/
theorem liveAttrs_cons_null (k : String) (rest : List (String × JSPrim)) :
    liveAttrs ((k, .null) :: rest) = liveAttrs rest := by
  simp [liveAttrs]

/-- Unfolding of the live attribute coercion on an undefined-valued head. -/
theorem liveAttrs_cons_undefined (k : String) (rest : List (String × JSPrim)) :
    liveAttrs ((k, .undefined) :: rest) = liveAttrs rest := by
  simp [liveAttrs]

/-- On props without boolean values and without "on"-prefixed names, the live
path's attributes serialize to exactly the static attribute markup. -/
theorem attrsRoundTrip : ∀ (ps : List (String × JSPrim)), ps.all goodAttr = true →
    serializeAttrs (liveAttrs ps)
      = buildAttributesHtml (ps.map fun kv => (kv.1, AVal.prim kv.2)) := by
  intro ps
  induction ps with
  | nil => intro h; simp [liveAttrs, buildAttributesHtml, serializeAttrs]
  | cons kv rest ih =>
    intro h
    simp only [List.all_cons, Bool.and_eq_true] at h
    obtain ⟨hk, hrest⟩ := h
    match kv with
    | (k, v) =>
      simp only [goodAttr, Bool.and_eq_true, Bool.not_eq_true'] at hk
      match v with
      | .bool b => simp at hk
      | .null =>
        rw [liveAttrs_cons_null]
        simp only [List.map_cons, buildAttributesHtml, isFnA, hk.1, Bool.or_self, if_false,
          Bool.false_eq_true]
        simpa using ih hrest
      | .undefined =>
        rw [liveAttrs_cons_undefined]
        simp only [List.map_cons, buildAttributesHtml, isFnA, hk.1, Bool.or_self, if_false,
          Bool.false_eq_true]
        simpa using ih hrest
      | .str s =>
        rw [liveAttrs_cons_str, serializeAttrs]
        simp only [List.map_cons, buildAttributesHtml, isFnA, hk.1, Bool.or_self, if_false,
          Bool.false_eq_true, jsString]
        rw [ih hrest]
      | .num n =>
        rw [liveAttrs_cons_num, serializeAttrs]
        simp only [List.map_cons, buildAttributesHtml, isFnA, hk.1, Bool.or_self, if_false,
          Bool.false_eq_true, jsString]
        rw [ih hrest]

mutual
/-- Round trip on a well-formed tree: the live DOM's serialization is the
static markup. -/
theorem roundTripGood : (t : STree) → goodS t = true →
    serializeDom (tagGeneratorPure t) = staticBuild t
  | .textT p, h => by
    have h2 : escapeText (jsString p) = jsString p := by
      simpa [goodS] using h
    simp [tagGeneratorPure, serializeDom, staticBuild, h2]
  | .elemT tag ps cs, h => by
    rw [goodS] at h
    simp only [Bool.and_eq_true, Bool.not_eq_true'] at h
    obtain ⟨⟨hv, hattrs⟩, hch⟩ := h
    have hA := attrsRoundTrip ps hattrs
    have hC := roundTripChildrenGood cs hch
    rw [tagGeneratorPure, staticBuild, staticTagGenerator]
    rw [serializeDom]
    simp only [hv, if_false, Bool.false_eq_true]
    rw [hA, hC]
/-- Round trip on a well-formed child list. -/
theorem roundTripChildrenGood : (cs : List STree) → goodSChildren cs = true →
    serializeDomList (livePureChildren cs)
      = (renderChildren (flattenChildren (staticBuildChildren cs)) []).1
  | [], _ => by
    simp [livePureChildren, staticBuildChildren, flattenChildren, renderChildren, serializeDomList]
  | .textT .null :: rest, h => by
    have hparts : goodS (.textT .null) = true ∧ goodSChildren rest = true := by
      simpa [goodSChildren, Bool.and_eq_true] using h
    rw [livePureChildren, staticBuildChildren, flattenChildren, renderChildren]
    exact roundTripChildrenGood rest hparts.2
  | .textT .undefined :: rest, h => by
    have hparts : goodS (.textT .undefined) = true ∧ goodSChildren rest = true := by
      simpa [goodSChildren, Bool.and_eq_true] using h
    rw [livePureChildren, staticBuildChildren, flattenChildren, renderChildren]
    exact roundTripChildrenGood rest hparts.2
  | .textT (.str s) :: rest, h => by
    have hparts : goodS (.textT (.str s)) = true ∧ goodSChildren rest = true := by
      simpa [goodSChildren, Bool.and_eq_true] using h
    have hesc : escapeText s = s := by
      simpa [goodS, jsString] using hparts.1
    rw [livePureChildren, staticBuildChildren, flattenChildren, renderChildren,
      serializeDomList, tagGeneratorPure, serializeDom]
    rw [roundTripChildrenGood rest hparts.2]
    simp [jsString, hesc]
    all_goals simp
  | .textT (.num n) :: rest, h => by
    have hparts : goodS (.textT (.num n)) = true ∧ goodSChildren rest = true := by
      simpa [goodSChildren, Bool.and_eq_true] using h
    have hesc : escapeText (toString n) = toString n := by
      simpa [goodS, jsString] using hparts.1
    rw [livePureChildren, staticBuildChildren, flattenChildren, renderChildren,
      serializeDomList, tagGeneratorPure, serializeDom]
    rw [roundTripChildrenGood rest hparts.2]
    simp [jsString, hesc]
    all_goals simp
  | .textT (.bool b) :: rest, h => by
    have hparts : goodS (.textT (.bool b)) = true ∧ goodSChildren rest = true := by
      simpa [goodSChildren, Bool.and_eq_true] using h
    have hesc : escapeText (jsString (.bool b)) = jsString (.bool b) := by
      simpa [goodS] using hparts.1
    rw [livePureChildren, staticBuildChildren, flattenChildren, renderChildren,
      serializeDomList, tagGeneratorPure, serializeDom]
    rw [roundTripChildrenGood rest hparts.2]
    simp [hesc]
    all_goals simp
  | .elemT tag2 ps2 cs2 :: rest, h => by
    have hparts : goodS (.elemT tag2 ps2 cs2) = true ∧ goodSChildren rest = true := by
      simpa [goodSChildren, Bool.and_eq_true] using h
    rw [livePureChildren, staticBuildChildren, flattenChildren, renderChildren,
      serializeDomList]
    rw [roundTripGood (.elemT tag2 ps2 cs2) hparts.1]
    rw [roundTripChildrenGood rest hparts.2]
    simp [jsString]
    all_goals simp
end

/-- C2: during a tick, a live attribute binding applies exactly the coercion
of the latest producer output — `true` ↦ the string "true", `false` ↦ the
string "false", `null`/`undefined` ↦ attribute removed, anything else ↦ its
string form (`coerceAttr`) — records it as the new previous value, and
performs a DOM write exactly when the output differs (JavaScript `===`, which
Lean equality on `AttrVal` models) from the previously recorded value; on an
identical output the slot keeps its attribute untouched.  The invariant
hypothesis `hinv` says the element's attribute currently holds the coercion
of the recorded previous value, which registration establishes and every tick
preserves. -/
theorem claim_C2 (s : AttrSlot) (v : AttrVal)
    (hc : s.connected = true) (hn : ¬s.attrName = "")
    (hcb : s.cb s.calls = .ok v)
    (hinv : s.attrVal = coerceAttr s.prev) :
    processAttrEntry (some s)
      = ⟨some { s with calls := s.calls + 1, attrVal := coerceAttr v, prev := v },
         false, decide ¬(v = s.prev), none⟩ := by
  rw [processAttrEntry]
  simp only [hc, Bool.not_true, Bool.false_eq_true, if_false, if_neg hn, hcb]
  by_cases hv : v = s.prev
  · subst hv
    simp [hinv]
  · simp [hv]

/-- Witness for C2 at a concrete slot whose producer output changed. -/
theorem claim_C2_witness :
    c2Slot.connected = true ∧ ¬c2Slot.attrName = "" ∧
    c2Slot.cb c2Slot.calls = .ok (.prim (.str "b")) ∧
    c2Slot.attrVal = coerceAttr c2Slot.prev ∧
    processAttrEntry (some c2Slot)
      = ⟨some { c2Slot with
                  calls := c2Slot.calls + 1,
                  attrVal := coerceAttr (.prim (.str "b")),
                  prev := .prim (.str "b") },
         false, decide ¬((AttrVal.prim (.str "b")) = c2Slot.prev), none⟩ :=
  ⟨rfl, by decide, rfl, by decide,
   claim_C2 c2Slot (.prim (.str "b")) rfl (by decide) rfl (by decide)⟩

/-- C3 counterexample: the current content is the text node "0" and the
producer returns the primitive 0, whose string form `String(0)` is "0" —
equal to the current text — yet the node pass replaces the node, because the
source compares against `String(new_value || "")`, which collapses the falsy
0 to "".  This refutes the claim's "when the new value is a primitive and the
current content is a text node, replacement occurs only if their string forms
differ". -/
theorem claim_C3_counterexample :
    c3Slot.current = some (.text "0") ∧
    c3Slot.cb c3Slot.calls = .ok (.prim (.num 0)) ∧
    jsString (.num 0) = "0" ∧
    (processNodeEntry (some c3Slot)).wrote = true := by
  refine ⟨rfl, rfl, rfl, by decide⟩

/-- C3 amended: for a live node slot whose producer returns `v` and whose
marker has preceding content `cur`, the pass performs exactly one replacement
when — and only when — the spelled-out condition holds: two `HTMLElement`s
are compared by their serialized `outerHTML`; a primitive against a text node
is compared after the falsy-collapsing coercion `String(v || "")` (not the
plain string form); every other combination always replaces.  The slot's
marker, producer and tracked previous value are untouched; only the content
node changes, and only on a replacement. -/
theorem claim_C3_amended (s : NodeSlot) (v : NodeVal) (cur : DomNode)
    (hc : s.connected = true) (hcb : s.cb s.calls = .ok v) (hcur : s.current = some cur) :
    processNodeEntry (some s)
      = ⟨some { s with
            calls := s.calls + 1,
            current := if (match cur, v with
                | .htmlElem h1, .node (.htmlElem h2) => h1 != h2
                | _, .node _ => true
                | .text t, .prim p => t != jsOrEmpty p
                | _, .prim _ => true) = true
              then some (materializeNode v) else s.current },
         false,
         (match cur, v with
          | .htmlElem h1, .node (.htmlElem h2) => h1 != h2
          | _, .node _ => true
          | .text t, .prim p => t != jsOrEmpty p
          | _, .prim _ => true),
         none⟩ := by
  have hmatch : needsUpdate cur v
      = (match cur, v with
         | .htmlElem h1, .node (.htmlElem h2) => h1 != h2
         | _, .node _ => true
         | .text t, .prim p => t != jsOrEmpty p
         | _, .prim _ => true) := by
    cases v with
    | node n => cases n <;> cases cur <;> rfl
    | prim p => cases cur <;> rfl
  rw [processNodeEntry]
  simp only [hc, Bool.not_true, Bool.false_eq_true, if_false, hcb, hcur, ← hmatch]
  by_cases hneed : needsUpdate cur v = true
  · simp [hneed, hcur]
  · have hneedf : needsUpdate cur v = false := by
      cases hnu : needsUpdate cur v
      · rfl
      · exact absurd hnu hneed
    simp [hneedf, hcur]

/-- Witness for the amended C3 at a slot where the text really changed. -/
theorem claim_C3_amended_witness :
    c3WSlot.connected = true ∧
    c3WSlot.cb c3WSlot.calls = .ok (.prim (.str "b")) ∧
    c3WSlot.current = some (.text "a") ∧
    processNodeEntry (some c3WSlot)
      = ⟨some { c3WSlot with
            calls := c3WSlot.calls + 1,
            current := if (match DomNode.text "a", NodeVal.prim (.str "b") with
                | .htmlElem h1, .node (.htmlElem h2) => h1 != h2
                | _, .node _ => true
                | .text t, .prim p => t != jsOrEmpty p
                | _, .prim _ => true) = true
              then some (materializeNode (.prim (.str "b"))) else c3WSlot.current },
         false,
         (match DomNode.text "a", NodeVal.prim (.str "b") with
          | .htmlElem h1, .node (.htmlElem h2) => h1 != h2
          | _, .node _ => true
          | .text t, .prim p => t != jsOrEmpty p
          | _, .prim _ => true),
         none⟩ :=
  ⟨rfl, rfl, rfl, claim_C3_amended c3WSlot (.prim (.str "b")) (.text "a") rfl rfl rfl⟩

/-- C9 counterexample: a tick that replaces the content node does not update
the tracked previous value: after the replacement the registry still holds
the initially registered node (the empty text node), not the newly applied
text node "1".  This refutes the claim that the tracked "last applied"
reference equals the newly applied node after a replacement. -/
theorem claim_C9_counterexample :
    (processNodeEntry (some c9Slot)).wrote = true ∧
    (processNodeEntry (some c9Slot)).entry.map (fun s => s.prev) = some (some (.text "")) ∧
    (processNodeEntry (some c9Slot)).entry.map (fun s => s.current) = some (some (.text "1")) ∧
    some (DomNode.text "") ≠ some (DomNode.text "1") := by
  refine ⟨by decide, by decide, by decide, by decide⟩

/-- Reading back the slot a registration just wrote. -/
theorem setPad_getD {α : Type} (l : List (Option α)) (i : Nat) (v : Option α) :
    (setPad l i v).getD i none = v := by
  rw [setPad]
  by_cases h : i < l.length
  · simp only [h, if_true]
    simp [List.getD_eq_getElem?_getD, List.getElem?_set_self h]
  · simp only [h, if_false]
    rw [List.getD_eq_getElem?_getD]
    have hlen : (l ++ List.replicate (i - l.length) none).length = i := by
      simp
      omega
    rw [List.getElem?_append_right (by omega)]
    simp [hlen]

/-- C9 amended: the tracked previous value (`reactive_prev_values[i]`) is
written only at registration — where it records the materialized initial node
— and is never updated by the node pass, which locates the current content
through the marker's previous sibling instead. -/
theorem claim_C9_amended :
    (∀ s : NodeSlot, ∃ s2, (processNodeEntry (some s)).entry = some s2 ∧ s2.prev = s.prev) ∧
    (∀ (cb : Nat → Except String NodeVal) (e : Engine) (v : NodeVal), cb 0 = .ok v →
      ∃ slot, ((setupReactiveNode cb e).1.nodeArr.getD e.nodeCount none) = some slot ∧
        slot.prev = some (materializeNode v) ∧
        (setupReactiveNode cb e).2 = .ok (materializeNode v)) := by
  constructor
  · intro s
    rw [processNodeEntry]
    by_cases hc : s.connected
    · simp only [hc, Bool.not_true, Bool.false_eq_true, if_false]
      match hcb : s.cb s.calls with
      | .error msg => exact ⟨_, rfl, rfl⟩
      | .ok v =>
        match hcur : s.current with
        | none => exact ⟨_, rfl, rfl⟩
        | some cur =>
          by_cases hneed : needsUpdate cur v = true
          · simp only [hneed, if_true]
            exact ⟨_, rfl, rfl⟩
          · simp only [hneed, if_false]
            exact ⟨_, rfl, rfl⟩
    · simp only [Bool.not_eq_true] at hc
      simp only [hc, Bool.not_false, if_true]
      exact ⟨_, rfl, rfl⟩
  · intro cb e v hcb
    rw [setupReactiveNode, hcb]
    exact ⟨_, setPad_getD _ _ _, rfl, rfl⟩

/-- C1 counterexample: the scenario producer `() => count` with `count = 0`
registers the EMPTY text node, not "0": `setupReactiveNode` materializes
`String(initial_value || "")` and 0 is falsy, so the string form "0" of the
primitive never reaches the DOM, and the first tick (count still 0) applies
no write, leaving the empty text in place.  This refutes "the text node
materialized ... equals the string form of that primitive; in particular ...
with `count = 0` the applied text is "0"". -/
theorem claim_C1_counterexample :
    c1Setup.2 = .ok (.text "") ∧
    jsString (.num 0) = "0" ∧
    c1T1.nodeWrites = [false] ∧
    nodeCurrentAt c1T1.engine 0 = some (some (.text "")) := by
  refine ⟨rfl, rfl, by decide, by decide⟩

/-- C1 amended: the text node materialized for a primitive producer output —
at registration and on every tick that applies a change — holds
`String(value || "")`: the empty string for a falsy primitive (0, false, "",
null, undefined) and the plain string form otherwise; a tick that performs no
write already has exactly that text in place.  In the scenario, registration
and the `count = 0` tick yield the empty text with no write, the tick after
`count` becomes 1 replaces it with "1", and the next tick writes nothing. -/
theorem claim_C1_amended :
    (∀ (s : NodeSlot) (p : JSPrim) (cur : DomNode),
      s.connected = true → s.cb s.calls = .ok (.prim p) → s.current = some cur →
      ((processNodeEntry (some s)).wrote = true →
        ∃ s2, (processNodeEntry (some s)).entry = some s2 ∧
          s2.current = some (.text (jsOrEmpty p))) ∧
      ((processNodeEntry (some s)).wrote = false → cur = .text (jsOrEmpty p))) ∧
    (∀ (cb : Nat → Except String NodeVal) (e : Engine) (p : JSPrim),
      cb 0 = .ok (.prim p) →
      (setupReactiveNode cb e).2 = .ok (.text (jsOrEmpty p))) ∧
    c1Setup.2 = .ok (.text "") ∧
    c1T1.nodeWrites = [false] ∧ nodeCurrentAt c1T1.engine 0 = some (some (.text "")) ∧
    c1T2.nodeWrites = [true] ∧ nodeCurrentAt c1T2.engine 0 = some (some (.text "1")) ∧
    c1T3.nodeWrites = [false] ∧ nodeCurrentAt c1T3.engine 0 = some (some (.text "1")) := by
  refine ⟨?_, ?_, rfl, by decide, by decide, by decide, by decide, by decide, by decide⟩
  · intro s p cur hc hcb hcur
    rw [processNodeEntry]
    simp only [hc, Bool.not_true, Bool.false_eq_true, if_false, hcb, hcur]
    by_cases hneed : needsUpdate cur (.prim p) = true
    · simp only [hneed, if_true]
      constructor
      · intro _
        exact ⟨_, rfl, rfl⟩
      · intro hw
        simp at hw
    · have hneedf : needsUpdate cur (.prim p) = false := by
        cases hnu : needsUpdate cur (.prim p)
        · rfl
        · exact absurd hnu hneed
      simp only [hneedf, if_false, Bool.false_eq_true]
      constructor
      · intro hw
        simp at hw
      · intro _
        match cur, hneedf with
        | .text t, hneedf => 
          have : (t != jsOrEmpty p) = false := by
            simpa [needsUpdate] using hneedf
          have ht : t = jsOrEmpty p := by
            simpa using this
          rw [ht]
        | .htmlElem h1, hneedf => simp [needsUpdate] at hneedf
        | .otherNode d, hneedf => simp [needsUpdate] at hneedf
  · intro cb e p hcb
    rw [setupReactiveNode, hcb]
    rfl

/-- Witness for the amended C1 at a slot whose text changes from "a" to "b",
with its hypotheses discharged at that input. -/
theorem claim_C1_witness :
    c3WSlot.connected = true ∧
    c3WSlot.cb c3WSlot.calls = .ok (.prim (.str "b")) ∧
    c3WSlot.current = some (.text "a") ∧
    (((processNodeEntry (some c3WSlot)).wrote = true →
        ∃ s2, (processNodeEntry (some c3WSlot)).entry = some s2 ∧
          s2.current = some (.text (jsOrEmpty (.str "b")))) ∧
      ((processNodeEntry (some c3WSlot)).wrote = false →
        DomNode.text "a" = .text (jsOrEmpty (.str "b")))) :=
  ⟨rfl, rfl, rfl, claim_C1_amended.1 c3WSlot (.str "b") (.text "a") rfl rfl rfl⟩

/-- C10: for every void tag name and every argument list, the static
generator emits exactly the self-closing tag built from the tag name and the
serialized attributes; children and innerHTML never reach the output, and no
producer (child, attribute or innerHTML) is ever invoked — the invocation log
is empty. -/
theorem claim_C10 (tag : String) (args : TagArgs)
    (h : VOID_ELEMENTS.contains tag = true) :
    staticTagGenerator tag args
      = ("<" ++ tag ++ buildAttributesHtml args.props ++ "/>", []) := by
  rw [staticTagGenerator]
  simp only [h, if_true]

/-- Witness for C10: `br` given attributes, children and a producer-valued
innerHTML emits only the attributes, and its log is empty. -/
theorem claim_C10_witness :
    VOID_ELEMENTS.contains "br" = true ∧
    staticTagGenerator "br" c10Args
      = ("<" ++ "br" ++ buildAttributesHtml c10Args.props ++ "/>", []) :=
  ⟨by decide, claim_C10 "br" c10Args (by decide)⟩

/-- C5 counterexample: an attribute producer is never resolved by the static
path: the generated markup drops the attribute entirely and the invocation
log is empty (the label 7 of the producer is invoked zero times, not once),
and its result "x" appears nowhere.  This refutes "every producer — whether
supplied as an attribute value or as a child — is resolved exactly once ...
and its result is concatenated directly into the output markup". -/
theorem claim_C5_counterexample :
    c5Args.props = [("class", .fnAttr 7 c5AttrFn)] ∧
    staticTagGenerator "div" c5Args = ("<div></div>", []) ∧
    (staticTagGenerator "div" c5Args).2.count 7 = 0 := by
  refine ⟨rfl, ?_, ?_⟩
  · simp [staticTagGenerator, c5Args, VOID_ELEMENTS, buildAttributesHtml, startsWithOn, isFnA,
      flattenChildren, renderChildren]
  · simp [staticTagGenerator, c5Args, VOID_ELEMENTS, flattenChildren, renderChildren]

/-- C5 amended: in the static path, child producers and an innerHTML producer
are each resolved exactly once, synchronously, in document order — the
invocation log of a non-void tag without innerHTML is exactly the list of
producer occurrences among the flattened children, an innerHTML producer is
logged exactly once with `String(result)` concatenated between the tags — but
attribute producers are never resolved: the attribute builder drops them
entirely, so removing one from the props changes nothing. -/
theorem claim_C5_amended :
    (∀ (tag : String) (args : TagArgs),
      VOID_ELEMENTS.contains tag = false → args.innerHTML = none →
      (staticTagGenerator tag args).2 = fnPids (flattenChildren args.children)) ∧
    (∀ (tag : String) (args : TagArgs) (pid : Nat) (f : Nat → JSPrim),
      VOID_ELEMENTS.contains tag = false → args.innerHTML = some (.fnIH pid f) →
      staticTagGenerator tag args
        = ("<" ++ tag ++ buildAttributesHtml args.props ++ ">" ++ jsString (f 0)
            ++ "</" ++ tag ++ ">", [pid])) ∧
    (∀ (l1 l2 : List (String × AVal)) (k : String) (pid : Nat) (f : Nat → JSPrim),
      buildAttributesHtml (l1 ++ (k, .fnAttr pid f) :: l2) = buildAttributesHtml (l1 ++ l2)) := by
  refine ⟨?_, ?_, ?_⟩
  · intro tag args hv hih
    rw [staticTagGenerator]
    simp only [hv, if_false, hih, Bool.false_eq_true]
    rw [renderChildren_log]
    simp
  · intro tag args pid f hv hih
    rw [staticTagGenerator]
    simp only [hv, if_false, hih, Bool.false_eq_true]
  · intro l1 l2 k pid f
    exact buildAttributesHtml_skip_fn l1 k pid f l2

/-- Witness for the amended C5: a div with two child producers (labels 1 and
2) around a static child and one attribute producer (label 3) logs exactly
[1, 2]. -/
theorem claim_C5_amended_witness :
    VOID_ELEMENTS.contains "div" = false ∧
    c5WArgs.innerHTML = none ∧
    (staticTagGenerator "div" c5WArgs).2 = fnPids (flattenChildren c5WArgs.children) ∧
    fnPids (flattenChildren c5WArgs.children) = [1, 2] :=
  ⟨by decide, rfl, claim_C5_amended.1 "div" c5WArgs (by decide) rfl,
   by simp [c5WArgs, flattenChildren, fnPids]⟩

/-- C4 counterexample: for the static attribute value `false`, the live path
sets the attribute to the string "false" (serializing as
`<div hidden="false"></div>`) while the static path omits the attribute
entirely (`<div></div>`).  No escaping is involved, and the two results do
not agree attribute-for-attribute: the constructed element carries the
attribute `hidden`, the markup string carries none.  This refutes the claimed
equivalence "up to escaping of attribute values". -/
theorem claim_C4_counterexample :
    tagGeneratorPure c4Tree = .elem "div" [("hidden", "false")] [] ∧
    serializeDom (tagGeneratorPure c4Tree) = "<div hidden=\x22false\x22></div>" ∧
    staticBuild c4Tree = "<div></div>" ∧
    serializeDom (tagGeneratorPure c4Tree) ≠ staticBuild c4Tree := by
  have h1 : tagGeneratorPure c4Tree = .elem "div" [("hidden", "false")] [] := by
    rw [c4Tree, tagGeneratorPure]
    rw [livePureChildren]
    rw [show liveAttrs [("hidden", .bool false)] = [("hidden", "false")] from by
      simp [liveAttrs]]
  have h2 : serializeDom (tagGeneratorPure c4Tree) = "<div hidden=\x22false\x22></div>" := by
    rw [h1, serializeDom]
    simp only [show (VOID_ELEMENTS.contains "div") = false from by decide, if_false,
      Bool.false_eq_true]
    rw [serializeDomList, serializeAttrs, serializeAttrs]
    simp [escapeHtml, escapeHtmlChar]
    decide
  have h3 : staticBuild c4Tree = "<div></div>" := by
    rw [c4Tree, staticBuild, staticTagGenerator]
    simp only [show (VOID_ELEMENTS.contains "div") = false from by decide, if_false,
      Bool.false_eq_true]
    rw [staticBuildChildren, flattenChildren, renderChildren]
    simp [buildAttributesHtml, startsWithOn, isFnA]
  refine ⟨h1, h2, h3, ?_⟩
  rw [h2, h3]
  decide

/-- C4 amended: the live-path element tree and the static markup agree — the
DOM serialization equals the generated string, with attribute-value escaping
normalized to the static path's `escapeHtml` — for every static-only tree in
which no tag is void, no attribute name starts with "on", no attribute value
is a boolean, and every text child's string form is unchanged by text
escaping.  Outside those conditions the two paths genuinely diverge
(booleans: live "true"/"false" strings versus static bare-presence/omission;
"on"-names: live sets them, static drops them; void tags: static emits "/>";
markup-significant text: live escapes, static concatenates raw). -/
theorem claim_C4_amended (t : STree) (h : goodS t = true) :
    serializeDom (tagGeneratorPure t) = staticBuild t :=
  roundTripGood t h

/-- Witness for the amended C4 on a nested tree with string and numeric
attributes and text, numeric and null children. -/
theorem claim_C4_amended_witness :
    goodS c4WTree = true ∧
    serializeDom (tagGeneratorPure c4WTree) = staticBuild c4WTree := by
  have hg : goodS c4WTree = true := by
    rw [c4WTree]
    rw [goodS]
    simp [goodSChildren, goodS, goodAttr, startsWithOn, escapeText, escapeTextChar, jsString,
      VOID_ELEMENTS]
    decide
  exact ⟨hg, claim_C4_amended c4WTree hg⟩

/-- C7: (i) a nulled or disconnected slot is left completely untouched by the
scan passes — its producer is not invoked (the whole entry, including its
call counter, is returned unchanged), no DOM write and no exception arise,
only the disconnection flag is raised — and it stays untouched through every
tick, whatever happens to the other slots; (ii) the sweep retains exactly the
connected entries, in their original relative order, written into a
contiguous prefix of each registry, nulls the remaining slots below the old
active count, and shrinks the active count to the retained length — so swept
slots are gone from every later tick's window. -/
theorem claim_C7 :
    (∀ o : Option AttrSlot, (∀ s, o = some s → s.connected = false) →
      processAttrEntry o = ⟨o, true, false, none⟩) ∧
    (∀ o : Option NodeSlot, (∀ s, o = some s → s.connected = false) →
      processNodeEntry o = ⟨o, true, false, none⟩) ∧
    (∀ (l : List (Option AttrSlot)) (i : Nat),
      (∀ s, l.getD i none = some s → s.connected = false) →
      (attrPassList l).slots.getD i none = l.getD i none) ∧
    (∀ (l : List (Option NodeSlot)) (i : Nat),
      (∀ s, l.getD i none = some s → s.connected = false) →
      (nodePassList l).slots.getD i none = l.getD i none) ∧
    (∀ e : Engine, e.nodeCount ≤ e.nodeArr.length → e.attrCount ≤ e.attrArr.length →
      cleanupDisconnectedReactives e =
        { e with
          nodeArr := (keptOf (fun s => s.connected) (e.nodeArr.take e.nodeCount)).map some
            ++ List.replicate
                (e.nodeCount - (keptOf (fun s => s.connected) (e.nodeArr.take e.nodeCount)).length)
                none
            ++ e.nodeArr.drop e.nodeCount,
          nodeCount := (keptOf (fun s => s.connected) (e.nodeArr.take e.nodeCount)).length,
          attrArr := (keptOf (fun s => s.connected) (e.attrArr.take e.attrCount)).map some
            ++ List.replicate
                (e.attrCount - (keptOf (fun s => s.connected) (e.attrArr.take e.attrCount)).length)
                none
            ++ e.attrArr.drop e.attrCount,
          attrCount := (keptOf (fun s => s.connected) (e.attrArr.take e.attrCount)).length }) := by
  refine ⟨processAttrEntry_skip, processNodeEntry_skip, attrPassList_skip, nodePassList_skip, ?_⟩
  intro e hn ha
  rw [cleanupDisconnectedReactives]
  rw [cleanupRegistry_spec _ _ _ hn, cleanupRegistry_spec _ _ _ ha]

/-- Witness for C7 at a mixed registry: one dead and one nulled node slot,
one dead attribute slot, with both counts within bounds. -/
theorem claim_C7_witness :
    (c7E.nodeCount ≤ c7E.nodeArr.length) ∧ (c7E.attrCount ≤ c7E.attrArr.length) ∧
    cleanupDisconnectedReactives c7E =
      { c7E with
        nodeArr := (keptOf (fun s => s.connected) (c7E.nodeArr.take c7E.nodeCount)).map some
          ++ List.replicate
              (c7E.nodeCount - (keptOf (fun s => s.connected) (c7E.nodeArr.take c7E.nodeCount)).length)
              none
          ++ c7E.nodeArr.drop c7E.nodeCount,
        nodeCount := (keptOf (fun s => s.connected) (c7E.nodeArr.take c7E.nodeCount)).length,
        attrArr := (keptOf (fun s => s.connected) (c7E.attrArr.take c7E.attrCount)).map some
          ++ List.replicate
              (c7E.attrCount - (keptOf (fun s => s.connected) (c7E.attrArr.take c7E.attrCount)).length)
              none
          ++ c7E.attrArr.drop c7E.attrCount,
        attrCount := (keptOf (fun s => s.connected) (c7E.attrArr.take c7E.attrCount)).length } :=
  ⟨by decide, by decide, claim_C7.2.2.2.2 c7E (by decide) (by decide)⟩

/-- C8: a throwing producer is not caught anywhere.  (i) If the attribute
pass reaches a slot whose producer throws (every earlier entry processing
cleanly), the tick returns that exception: the remaining attribute slots and
the whole node registry are untouched (no node producer runs), the sweep
countdown does not advance and no sweep runs.  (ii) Likewise a throw in the
node pass propagates, leaving the remaining node slots untouched and skipping
the sweep logic.  (iii, iv) A producer that throws during registration
propagates to the caller — with the slot index already claimed, as in the
source, where the count is incremented before the first invocation. -/
theorem claim_C8 :
    (∀ (e : Engine) (l1 l2 : List (Option AttrSlot)) (o : Option AttrSlot) (msg : String),
      e.attrArr.take e.attrCount = l1 ++ o :: l2 →
      (∀ x ∈ l1, (processAttrEntry x).err = none) →
      (processAttrEntry o).err = some msg →
      (updateReactiveComponents e).err = some msg ∧
      (updateReactiveComponents e).engine.nodeArr = e.nodeArr ∧
      (updateReactiveComponents e).engine.cleanupCounter = e.cleanupCounter ∧
      (updateReactiveComponents e).swept = false ∧
      (updateReactiveComponents e).engine.attrArr
        = l1.map (fun x => (processAttrEntry x).entry) ++ (processAttrEntry o).entry :: l2
          ++ e.attrArr.drop e.attrCount) ∧
    (∀ (e : Engine) (l1 l2 : List (Option NodeSlot)) (o : Option NodeSlot) (msg : String),
      (attrPassList (e.attrArr.take e.attrCount)).err = none →
      e.nodeArr.take e.nodeCount = l1 ++ o :: l2 →
      (∀ x ∈ l1, (processNodeEntry x).err = none) →
      (processNodeEntry o).err = some msg →
      (updateReactiveComponents e).err = some msg ∧
      (updateReactiveComponents e).engine.cleanupCounter = e.cleanupCounter ∧
      (updateReactiveComponents e).swept = false ∧
      (updateReactiveComponents e).engine.nodeArr
        = l1.map (fun x => (processNodeEntry x).entry) ++ (processNodeEntry o).entry :: l2
          ++ e.nodeArr.drop e.nodeCount) ∧
    (∀ (cb : Nat → Except String NodeVal) (e : Engine) (msg : String), cb 0 = .error msg →
      setupReactiveNode cb e = ({ e with nodeCount := e.nodeCount + 1 }, .error msg)) ∧
    (∀ (name : String) (cb : Nat → Except String AttrVal) (conn : Bool)
        (before : Option String) (e : Engine) (msg : String), cb 0 = .error msg →
      setupReactiveAttr name cb conn before e
        = ({ e with attrCount := e.attrCount + 1 }, .error msg)) := by
  refine ⟨?_, ?_, ?_, ?_⟩
  · intro e l1 l2 o msg hsplit hpre herr
    have hab := attrPassList_abort l1 o l2 msg hpre herr
    simp only [updateReactiveComponents, hsplit, hab.1, hab.2]
    simp [List.append_assoc]
  · intro e l1 l2 o msg hap hsplit hpre herr
    have hab := nodePassList_abort l1 o l2 msg hpre herr
    simp only [updateReactiveComponents, hap]
    simp only [hsplit, hab.1, hab.2]
    simp [List.append_assoc]
  · intro cb e msg hcb
    rw [setupReactiveNode, hcb]
  · intro name cb conn before e msg hcb
    rw [setupReactiveAttr, hcb]

/-- Witness for C8: in an engine whose second attribute producer throws
"boom" after a clean first slot, the tick propagates "boom", never touches
the node registry or the sweep countdown, and leaves the third attribute slot
unprocessed. -/
theorem claim_C8_witness :
    c8E.attrArr.take c8E.attrCount
      = [some quietASlot] ++ some throwASlot :: [some deadASlot] ∧
    (∀ x ∈ [some quietASlot], (processAttrEntry x).err = none) ∧
    (processAttrEntry (some throwASlot)).err = some "boom" ∧
    ((updateReactiveComponents c8E).err = some "boom" ∧
      (updateReactiveComponents c8E).engine.nodeArr = c8E.nodeArr ∧
      (updateReactiveComponents c8E).engine.cleanupCounter = c8E.cleanupCounter ∧
      (updateReactiveComponents c8E).swept = false ∧
      (updateReactiveComponents c8E).engine.attrArr
        = [some quietASlot].map (fun x => (processAttrEntry x).entry)
          ++ (processAttrEntry (some throwASlot)).entry :: [some deadASlot]
          ++ c8E.attrArr.drop c8E.attrCount) :=
  ⟨rfl, by decide, by decide,
   claim_C8.1 c8E [some quietASlot] [some deadASlot] (some throwASlot) "boom"
     rfl (by decide) (by decide)⟩

/-- C6 counterexample: one attribute binding's host is detached for tick 1
(the disconnection is observed: `foundAttrs`), then re-attached; ticks 2-60
observe nothing.  60 ticks elapse since the last sweep with a disconnection
observed in the interim, yet no sweep runs at the boundary — or ever — and
the countdown still reads 1: the counter only advances on ticks that
themselves observe a disconnection.  This refutes "the Sweep runs exactly
when 60 ticks have elapsed since the previous sweep and at least one
disconnection was observed in that interim". -/
theorem claim_C6_counterexample :
    c6T1.foundAttrs = true ∧
    c6T1.swept = false ∧
    anySwept 59 c6E1 = false ∧
    (tickIter 59 c6E1).cleanupCounter = 1 ∧
    (tickIter 59 c6E1).attrCount = 1 := by
  refine ⟨by decide, by decide, by decide, by decide, by decide⟩

/-- C6 amended: on an exception-free tick, the sweep runs exactly when the
tick itself observed a disconnection AND it is the 60th disconnection-
observing tick since the previous sweep (the countdown reaches 60); ticks
that observe no disconnection leave the countdown unchanged, so sweeps are
not scheduled by elapsed ticks but by accumulated disconnection-observing
ticks, and with no disconnection at all no sweep ever runs. -/
theorem claim_C6_amended (e : Engine)
    (herr : (updateReactiveComponents e).err = none) :
    (updateReactiveComponents e).swept
      = (((updateReactiveComponents e).foundAttrs || (updateReactiveComponents e).foundNodes)
          && decide (e.cleanupCounter + 1 ≥ 60)) ∧
    (updateReactiveComponents e).engine.cleanupCounter
      = (if ((updateReactiveComponents e).foundAttrs || (updateReactiveComponents e).foundNodes)
            = true
         then (if e.cleanupCounter + 1 ≥ 60 then 0 else e.cleanupCounter + 1)
         else e.cleanupCounter) := by
  simp only [updateReactiveComponents] at herr ⊢
  split at herr
  · simp at herr
  · split at herr
    · simp at herr
    · by_cases hf : ((attrPassList (e.attrArr.take e.attrCount)).found
          || (nodePassList (e.nodeArr.take e.nodeCount)).found) = true
      · by_cases hc : e.cleanupCounter + 1 ≥ 60
        · simp [hf, hc, cleanupDisconnectedReactives]
        · simp [hf, hc]
      · simp only [Bool.not_eq_true] at hf
        simp [hf]

/-- Witness for the amended C6 at the scenario engine: tick 1 observes the
detached host and merely advances the countdown to 1 without sweeping. -/
theorem claim_C6_amended_witness :
    (updateReactiveComponents c6E0).err = none ∧
    ((updateReactiveComponents c6E0).swept
      = (((updateReactiveComponents c6E0).foundAttrs
            || (updateReactiveComponents c6E0).foundNodes)
          && decide (c6E0.cleanupCounter + 1 ≥ 60)) ∧
     (updateReactiveComponents c6E0).engine.cleanupCounter
      = (if ((updateReactiveComponents c6E0).foundAttrs
              || (updateReactiveComponents c6E0).foundNodes) = true
         then (if c6E0.cleanupCounter + 1 ≥ 60 then 0 else c6E0.cleanupCounter + 1)
         else c6E0.cleanupCounter)) :=
  ⟨by decide, claim_C6_amended c6E0 (by decide)⟩

/-- Witness for the amended C9: the tick on the counterexample slot keeps
`prev` unchanged, and the scenario registration records the materialized
initial node as `prev` while returning it. -/
theorem claim_C9_amended_witness :
    (∃ s2, (processNodeEntry (some c9Slot)).entry = some s2 ∧ s2.prev = c9Slot.prev) ∧
    c1Stream 0 = .ok (.prim (.num 0)) ∧
    (∃ slot, ((setupReactiveNode c1Stream emptyEngine).1.nodeArr.getD
        emptyEngine.nodeCount none) = some slot ∧
      slot.prev = some (materializeNode (.prim (.num 0))) ∧
      (setupReactiveNode c1Stream emptyEngine).2 = .ok (materializeNode (.prim (.num 0)))) :=
  ⟨claim_C9_amended.1 c9Slot, rfl,
   claim_C9_amended.2 c1Stream emptyEngine (.prim (.num 0)) rfl⟩
